import Mathlib

/-!
Verification of the autonomous ground-vehicle control runtime
(`src/config/settings.py`, `src/hardware/processes.py`, `src/main.py`).

Python floats are modelled as exact rationals (`ℚ`); machine integers and
integer-valued numpy arrays as `ℤ`.  Python `int(x)` and the implicit cast
performed when a float is stored into an integer numpy array both truncate
toward zero, which `qtrunc` reproduces; Python's `%` on floats is the
floor-remainder `qmod`.  Queues are modelled by the list of items a worker
pushes onto them, in push order.
-/

namespace Vehicle

/-! ## Configuration (`src/config/settings.py`, `ExplorerConfig` and the
constants fixed in `LiDARProcess.__init__`) -/

/-- Constant `ExplorerConfig.MAP_SIZE = 1000`. -/
def MAP_SIZE : ℤ := 1000

/-- Constant `ExplorerConfig.RESOLUTION = 0.05`. -/
def RESOLUTION : ℚ := 1/20

/-- Constant `ExplorerConfig.MIN_DISTANCE = 0.3`. -/
def MIN_DISTANCE : ℚ := 3/10

/-- Constant `ExplorerConfig.TURN_SPEED = 0.3`. -/
def TURN_SPEED : ℚ := 3/10

/-- Constant `ExplorerConfig.FORWARD_SPEED = 0.5`. -/
def FORWARD_SPEED : ℚ := 1/2

/-- Constant `LiDARProcess.min_quality = 15`. -/
def min_quality : ℚ := 15

/-- Constant `LiDARProcess.max_retries = 5`. -/
def max_retries : ℕ := 5

/-! ## Numeric helpers shared by the embeddings -/

/-- Python `int(x)` / numpy int64 item assignment: truncation toward zero. -/
def qtrunc (q : ℚ) : ℤ := if 0 ≤ q then ⌊q⌋ else -⌊-q⌋

/-- Python `x % m` on floats (`m > 0`): floor remainder, lands in `[0, m)`. -/
def qmod (q m : ℚ) : ℚ := q - m * (⌊q / m⌋ : ℚ)

theorem qtrunc_of_nonneg {q : ℚ} (h : 0 ≤ q) : qtrunc q = ⌊q⌋ := if_pos h

theorem qtrunc_intCast (z : ℤ) : qtrunc (z : ℚ) = z := by
  unfold qtrunc
  split
  · exact Int.floor_intCast z
  · rw [show -(z : ℚ) = ((-z : ℤ) : ℚ) by push_cast; ring, Int.floor_intCast]
    ring

theorem qmod_nonneg {q m : ℚ} (hm : 0 < m) : 0 ≤ qmod q m := by
  unfold qmod
  have h := Int.floor_le (q / m)
  have : m * (⌊q / m⌋ : ℚ) ≤ m * (q / m) := by
    exact mul_le_mul_of_nonneg_left h (le_of_lt hm)
  rw [mul_div_cancel₀ q (ne_of_gt hm)] at this
  linarith

theorem qmod_lt {q m : ℚ} (hm : 0 < m) : qmod q m < m := by
  unfold qmod
  have h := Int.lt_floor_add_one (q / m)
  have : m * (q / m) < m * ((⌊q / m⌋ : ℚ) + 1) := by
    exact mul_lt_mul_of_pos_left h hm
  rw [mul_div_cancel₀ q (ne_of_gt hm)] at this
  nlinarith

/-! ## RangeScanner (`LiDARProcess`)

A raw reading is a triple `(quality, angle, distance)` exactly as unpacked by
`for quality, angle, distance in scan_data`. -/

/-- One raw LiDAR reading `(quality, angle, distance)`. -/
structure RawReading where
  quality : ℚ
  angle : ℚ
  distance : ℚ
deriving DecidableEq

/-- Embedding of `LiDARProcess._process_scan`: the Python loop appends
`(angle, distance/1000.0)` for every reading with
`quality >= self.min_quality`, and the function returns `None`
(`processed_scan if processed_scan else None`) when nothing was kept. -/
def process_scan (scan_data : List RawReading) : Option (List (ℚ × ℚ)) :=
  let processed :=
    scan_data.foldl
      (fun acc r =>
        if min_quality ≤ r.quality then acc ++ [(r.angle, r.distance / 1000)] else acc)
      []
  if processed.isEmpty then none else some processed

/-- The scan batches `LiDARProcess.run` pushes for one raw batch:
`if processed_scan: self.queue.put(('scan', processed_scan))`. -/
def lidar_emit (scan_data : List RawReading) : List (List (ℚ × ℚ)) :=
  match process_scan scan_data with
  | none => []
  | some batch => [batch]

/-- Spec-side reformulation of the quality filter: keep exactly the readings
whose quality meets the minimum and convert their distances to meters. -/
def spec_filtered (scan_data : List RawReading) : List (ℚ × ℚ) :=
  (scan_data.filter (fun r => min_quality ≤ r.quality)).map
    (fun r => (r.angle, r.distance / 1000))

theorem process_scan_foldl_eq (scan_data : List RawReading) (acc : List (ℚ × ℚ)) :
    scan_data.foldl
      (fun acc r =>
        if min_quality ≤ r.quality then acc ++ [(r.angle, r.distance / 1000)] else acc)
      acc = acc ++ spec_filtered scan_data := by
  induction scan_data generalizing acc with
  | nil => simp [spec_filtered]
  | cons r rest ih =>
    by_cases h : min_quality ≤ r.quality
    · simp only [List.foldl_cons, if_pos h, ih]
      simp [spec_filtered, List.filter_cons, h]
    · simp only [List.foldl_cons, if_neg h, ih]
      simp [spec_filtered, List.filter_cons, h]

theorem process_scan_eq_spec (scan_data : List RawReading) :
    process_scan scan_data =
      if (spec_filtered scan_data).isEmpty then none else some (spec_filtered scan_data) := by
  unfold process_scan
  rw [process_scan_foldl_eq scan_data []]
  simp

/-! ## Explorer frontal-cone minimum (`ExplorerProcess.run`, lines 255-259) -/

/-- The code's cone membership test `-30 <= angle <= 30`.  Scan angles are
taken in the vehicle frame (angle `0` is straight ahead), so this is the
frontal cone relative to the vehicle's heading. -/
def in_cone (angle : ℚ) : Prop := -30 ≤ angle ∧ angle ≤ 30

instance (angle : ℚ) : Decidable (in_cone angle) := by
  unfold in_cone; infer_instance

/-- The code's running-minimum loop.  `none` models the initial
`nearest = float('inf')`; a point updates the accumulator exactly when
`-30 <= angle <= 30 and dist < nearest`. -/
def nearestFold (acc : Option ℚ) : List (ℚ × ℚ) → Option ℚ
  | [] => acc
  | (a, d) :: rest =>
      nearestFold
        (if in_cone a ∧ (∀ n ∈ acc, d < n) then some d else acc) rest

/-- Value of `nearest` as computed by one Explorer iteration over a scan batch
(`none` = `float('inf')`, no frontal obstacle). -/
def computeNearest (scan : List (ℚ × ℚ)) : Option ℚ := nearestFold none scan

/-- Spec-side minimum of a list of distances (`none` on the empty list). -/
def specMin : List ℚ → Option ℚ
  | [] => none
  | d :: rest =>
      match specMin rest with
      | none => some d
      | some m => some (min d m)

/-- Merge of two optional minima (`none` behaves as `+∞`). -/
def optMin : Option ℚ → Option ℚ → Option ℚ
  | none, b => b
  | some a, none => some a
  | some a, some b => some (min a b)

theorem specMin_cons (d : ℚ) (l : List ℚ) :
    specMin (d :: l) = optMin (some d) (specMin l) := by
  cases h : specMin l <;> simp [specMin, optMin, h]

theorem optMin_assoc (a b c : Option ℚ) :
    optMin (optMin a b) c = optMin a (optMin b c) := by
  cases a <;> cases b <;> cases c <;> simp [optMin, min_assoc]

theorem nearestFold_step (acc : Option ℚ) (d : ℚ) :
    (if (∀ n ∈ acc, d < n) then some d else acc) = optMin acc (some d) := by
  cases acc with
  | none => simp [optMin]
  | some n =>
    by_cases h : d < n
    · simp [optMin, h, min_comm d n, min_eq_right (le_of_lt h)]
    · simp only [Option.mem_def, Option.some.injEq, forall_eq']
      rw [if_neg h, optMin]
      rw [min_eq_left (le_of_not_lt h)]

theorem nearestFold_eq (scan : List (ℚ × ℚ)) (acc : Option ℚ) :
    nearestFold acc scan =
      optMin acc (specMin ((scan.filter (fun p => decide (in_cone p.1))).map Prod.snd)) := by
  induction scan generalizing acc with
  | nil => cases acc <;> simp [nearestFold, specMin, optMin]
  | cons p rest ih =>
    obtain ⟨a, d⟩ := p
    by_cases h : in_cone a
    · have hsplit :
          (if in_cone a ∧ (∀ n ∈ acc, d < n) then some d else acc)
            = optMin acc (some d) := by
        rw [← nearestFold_step acc d]
        by_cases hlt : (∀ n ∈ acc, d < n) <;> simp [h, hlt]
      simp only [nearestFold, hsplit, ih, optMin_assoc]
      simp [List.filter_cons, h, specMin_cons]
    · have hcond : ¬(in_cone a ∧ (∀ n ∈ acc, d < n)) := fun hc => h hc.1
      simp only [nearestFold, if_neg hcond, ih]
      simp [List.filter_cons, h]

/-! ## Movement commands (`('move', (left, right))` / `('emergency_stop', None)`
tuples pushed on the motor command queue) -/

/-- A command on the motor command queue. -/
inductive MotorCmd where
  | move (left right : ℚ)
  | estop
deriving DecidableEq

/-! ## Explorer (`ExplorerProcess.run`)

`map_data = np.zeros((MAP_SIZE, MAP_SIZE))` is the occupancy grid, indexed
`map_data[y, x]`; `position = np.array([MAP_SIZE//2, MAP_SIZE//2])` is an
*integer* numpy array (no dtype given, integer initializers), so storing
`position[i] + 0.05*cos(...)` back into it truncates toward zero;
`orientation` is a float.  The trigonometric functions are abstracted as a
pair of functions `cosd sind : ℚ → ℚ` standing for
`np.cos(np.radians ·)` and `np.sin(np.radians ·)` on degrees. -/

/-- Explorer private state: grid (keyed `(y, x)` as in `map_data[y, x]`),
integer position array and float orientation. -/
structure EState where
  grid : ℤ × ℤ → Bool
  posx : ℤ
  posy : ℤ
  orient : ℚ

/-- Grid projection of one scan point from the loop body:
`x = int(position[0] + (dist * np.cos(rad_angle) / RESOLUTION))` with
`rad_angle = np.radians(angle + orientation)`, and likewise `y` with `sin`. -/
def project (cosd sind : ℚ → ℚ) (st : EState) (p : ℚ × ℚ) : ℤ × ℤ :=
  (qtrunc ((st.posx : ℚ) + p.2 * cosd (p.1 + st.orient) / RESOLUTION),
   qtrunc ((st.posy : ℚ) + p.2 * sind (p.1 + st.orient) / RESOLUTION))

/-- Marking of one point: `if 0 <= x < MAP_SIZE and 0 <= y < MAP_SIZE:
map_data[y, x] = 1`; out-of-bounds points are discarded. -/
def markCell (cosd sind : ℚ → ℚ) (st : EState) (g : ℤ × ℤ → Bool) (p : ℚ × ℚ) :
    ℤ × ℤ → Bool :=
  let xy := project cosd sind st p
  if 0 ≤ xy.1 ∧ xy.1 < MAP_SIZE ∧ 0 ≤ xy.2 ∧ xy.2 < MAP_SIZE then
    fun c => if c = (xy.2, xy.1) then true else g c
  else g

/-- The grid after the marking loop over the whole batch. -/
def markScan (cosd sind : ℚ → ℚ) (st : EState) (scan : List (ℚ × ℚ)) : ℤ × ℤ → Bool :=
  scan.foldl (markCell cosd sind st) st.grid

/-- Test `nearest < MIN_DISTANCE` where `nearest` may be `float('inf')` (`none`):
infinity is not below the threshold. -/
def nearBelow (near : Option ℚ) (m : ℚ) : Bool :=
  match near with
  | none => false
  | some v => decide (v < m)

/-- One iteration of the Explorer loop on a received scan batch: compute
`nearest`, mark the grid, then either rotate in place
(`('move', (-TURN_SPEED, TURN_SPEED))`, `orientation = (orientation + 5) % 360`)
or drive forward (`('move', (FORWARD_SPEED, FORWARD_SPEED))`,
`position[i] += 0.05 * cos/sin(radians(orientation))` truncated by the
integer array). -/
def explorerStep (cosd sind : ℚ → ℚ) (st : EState) (scan : List (ℚ × ℚ)) :
    EState × MotorCmd :=
  let near := computeNearest scan
  let g := markScan cosd sind st scan
  if nearBelow near MIN_DISTANCE then
    (⟨g, st.posx, st.posy, qmod (st.orient + 5) 360⟩,
     MotorCmd.move (-TURN_SPEED) TURN_SPEED)
  else
    (⟨g, qtrunc ((st.posx : ℚ) + 1/20 * cosd st.orient),
        qtrunc ((st.posy : ℚ) + 1/20 * sind st.orient), st.orient⟩,
     MotorCmd.move FORWARD_SPEED FORWARD_SPEED)

/-- The Explorer loop over a sequence of polls of the scan queue
(`none` = queue empty this tick, nothing happens). -/
def explorerLoop (cosd sind : ℚ → ℚ) (st : EState) :
    List (Option (List (ℚ × ℚ))) → EState × List MotorCmd
  | [] => (st, [])
  | none :: rest => explorerLoop cosd sind st rest
  | some scan :: rest =>
      let r := explorerStep cosd sind st scan
      let rr := explorerLoop cosd sind r.1 rest
      (rr.1, r.2 :: rr.2)

/-- Embedding of `ExplorerProcess.run` from loop entry to exit: runs the loop until the
stop event is observed (end of the poll list), then executes the trailing
`self.motor_queue.put(('emergency_stop', None))`.  The second component is
everything the Explorer pushed onto the motor command queue. -/
def explorerRun (cosd sind : ℚ → ℚ) (st : EState)
    (polls : List (Option (List (ℚ × ℚ)))) : EState × List MotorCmd :=
  let r := explorerLoop cosd sind st polls
  (r.1, r.2 ++ [MotorCmd.estop])

/-- Initial Explorer state: zero grid, `position = [MAP_SIZE//2, MAP_SIZE//2]`,
`orientation = 0.0`. -/
def explorerInit : EState :=
  ⟨fun _ => false, MAP_SIZE / 2, MAP_SIZE / 2, 0⟩

/-! ## Drive worker (`MotorProcess.run`)

`run` is a `try/except/finally`: the GPIO lines are requested once; the loop
drains at most one command per iteration; any exception (including one raised
while dispatching a command) is caught by the `except` clause; the `finally`
clause runs on every exit path and, when the lines were acquired, performs an
emergency stop and then releases each of the six lines, each release wrapped
in its own `try`. -/

/-- The values of the six motor-control lines. -/
structure PinVals where
  left_fwd : Bool
  left_bwd : Bool
  left_en : Bool
  right_fwd : Bool
  right_bwd : Bool
  right_en : Bool
deriving DecidableEq

/-- All six lines low. -/
def all_off : PinVals := ⟨false, false, false, false, false, false⟩

/-- Modelled from the spec: `MotorProcess._set_motors` is called from
`MotorProcess.run` but its definition is not under `src/`.  §4.4: per side,
enable is on iff `|speed| > 0`, forward on iff `speed > 0`, backward on iff
`speed < 0`. -/
def set_motors (left right : ℚ) : PinVals :=
  ⟨decide (0 < left), decide (left < 0), decide (¬left = 0),
   decide (0 < right), decide (right < 0), decide (¬right = 0)⟩

/-- Modelled from the spec: `MotorProcess._emergency_stop` is called from
`MotorProcess.run` but its definition is not under `src/`.  §4.4: force all
enable lines off, forward/backward lines off. -/
def emergency_vals : PinVals := all_off

/-- Line values written by dispatching one command tag. -/
def applyCmd : MotorCmd → PinVals
  | MotorCmd.move l r => set_motors l r
  | MotorCmd.estop => emergency_vals

/-- One iteration of the Drive main loop as seen from outside: the queue
poll yields nothing, yields a command, or the iteration raises. -/
inductive MotorEvent where
  | tick (c : Option MotorCmd)
  | crash

/-- Drive worker state: number of GPIO lines currently held and the line
values last written. -/
structure MState where
  held : ℕ
  vals : PinVals

/-- The `while not self.stop_event.is_set()` loop: consumes events until the
list ends (stop event observed) or an exception occurs; the Boolean records
whether an exception was raised (and caught by `except`). -/
def motorLoop (st : MState) : List MotorEvent → MState × Bool
  | [] => (st, false)
  | MotorEvent.crash :: _ => (st, true)
  | MotorEvent.tick none :: rest => motorLoop st rest
  | MotorEvent.tick (some c) :: rest => motorLoop ⟨st.held, applyCmd c⟩ rest

/-- The release loop of the `finally` clause: `for pin in pins.values():
pin.release()`, one line at a time. -/
def releaseAll : ℕ → MState → MState
  | 0, st => st
  | n + 1, st => releaseAll n ⟨st.held - 1, st.vals⟩

/-- Embedding of `MotorProcess.run` end to end.  `initOk = false`: `_init_gpio` raised, so
`pins` is still `None` and the `finally` clause does nothing.  `initOk = true`:
the six lines are acquired, the loop runs, and the `finally` clause performs
the emergency stop and then releases all six lines, whether or not the loop
ended in an exception. -/
def motorRun (initOk : Bool) (evs : List MotorEvent) : MState :=
  if initOk then
    let st1 := (motorLoop ⟨6, all_off⟩ evs).1
    releaseAll 6 ⟨st1.held, emergency_vals⟩
  else
    ⟨0, all_off⟩

/-! ## Supervisor (`VehicleController` in `src/main.py`)

State: `self.mode` and the number of live Explorer processes (`'explorer' in
self.processes`); the emitted list is what the handler pushes onto
`self.motor_queue`. -/

/-- Value of `VehicleController.mode`. -/
inductive Mode where
  | manual
  | explore
deriving DecidableEq

/-- The body of a `/mode` request: a valid target mode or an unknown one. -/
inductive ModeReq where
  | manual
  | explore
  | invalid
deriving DecidableEq

/-- An external operation on the Supervisor. -/
inductive SupOp where
  | set_mode (r : ModeReq)
  | emergency

/-- Supervisor state: current mode and number of live Navigator (Explorer)
processes. -/
structure SupState where
  mode : Mode
  navs : ℕ
deriving DecidableEq

/-- Embedding of `VehicleController.handle_mode`: unknown mode is rejected with no state
change; requesting the current mode is a no-op (`'Mode unchanged'`);
`manual → explore` constructs and starts a new Explorer;
`explore → manual` terminates, joins and deletes the Explorer.  Neither
branch puts anything on the motor command queue. -/
def handle_mode (s : SupState) (r : ModeReq) : SupState × List MotorCmd :=
  match r with
  | ModeReq.invalid => (s, [])
  | ModeReq.explore =>
      if s.mode = Mode.explore then (s, [])
      else ({ mode := Mode.explore, navs := s.navs + 1 }, [])
  | ModeReq.manual =>
      if s.mode = Mode.manual then (s, [])
      else ({ mode := Mode.manual, navs := s.navs - 1 }, [])

/-- Embedding of `VehicleController.handle_emergency`: put `('emergency_stop', None)` on
the motor queue, terminate the Explorer if present, force mode to manual. -/
def handle_emergency (s : SupState) : SupState × List MotorCmd :=
  ({ mode := Mode.manual, navs := s.navs - 1 }, [MotorCmd.estop])

/-- Dispatch one external operation. -/
def supStep (s : SupState) : SupOp → SupState × List MotorCmd
  | SupOp.set_mode r => handle_mode s r
  | SupOp.emergency => handle_emergency s

/-- Run a sequence of external operations, collecting every command the
Supervisor forwards on the motor queue. -/
def supRun (s : SupState) : List SupOp → SupState × List MotorCmd
  | [] => (s, [])
  | op :: rest =>
      let r := supStep s op
      let rr := supRun r.1 rest
      (rr.1, r.2 ++ rr.2)

/-- Initial state from `VehicleController.__init__`: mode manual, no Explorer. -/
def supInit : SupState := ⟨Mode.manual, 0⟩

/-- Embedding of `VehicleController._validate_speed`: `-1.0 <= speed <= 1.0`. -/
def validate_speed (speed : ℚ) : Prop := -1 ≤ speed ∧ speed ≤ 1

instance (speed : ℚ) : Decidable (validate_speed speed) := by
  unfold validate_speed; infer_instance

/-- Outcome of a `/control` request. -/
inductive CtrlResult where
  | ok
  | rejected_mode
  | rejected_speed
deriving DecidableEq

/-- Embedding of `VehicleController.handle_control`: reject with `'Not in manual mode'`
when the mode is not manual, then reject with `'Invalid speed values'` when
either speed fails validation, otherwise put `('move', (left, right))` on the
motor queue. -/
def handle_control (mode : Mode) (left right : ℚ) : CtrlResult × List MotorCmd :=
  if ¬mode = Mode.manual then (CtrlResult.rejected_mode, [])
  else if ¬(validate_speed left ∧ validate_speed right) then (CtrlResult.rejected_speed, [])
  else (CtrlResult.ok, [MotorCmd.move left right])

/-! ## RangeScanner failure policy (`LiDARProcess.run`)

The `while not stop and retry_count < max_retries` loop is driven by
episodes: each episode is either a failed connection attempt (`_init_lidar`
raised), a successful connection whose streaming later raised (the successful
connect resets `retry_count = 0` before the exception adds 1), or a
successful connection interrupted by the stop event.  The worker leaves
`running` when the stop event is observed or the retry budget is exhausted;
the action list records connection attempts, device teardowns
(`_cleanup_lidar`) and backoff sleeps (`time.sleep(self.retry_delay)`). -/

/-- Retry-machine state: current `retry_count` and whether the worker is
still in its connect/stream loop. -/
structure LState where
  count : ℕ
  running : Bool
deriving DecidableEq

/-- One episode of the LiDAR loop. -/
inductive LEvent where
  | init_fail
  | stream_fail
  | stop_seen

/-- Externally visible actions of the LiDAR worker. -/
inductive LAction where
  | attempt
  | teardown
  | backoff
deriving DecidableEq

/-- One episode: a failure increments `retry_count` (from 0 when the connect
had succeeded and reset it) and tears the device down; the worker backs off
and retries only while the count is below `max_retries`, otherwise it breaks
out of the loop for good.  The stop event ends the loop with a final
teardown. -/
def lidarStep (s : LState) (e : LEvent) : LState × List LAction :=
  if s.running = false then (s, [])
  else
    match e with
    | LEvent.init_fail =>
        let c := s.count + 1
        (⟨c, decide (c < max_retries)⟩,
         [LAction.attempt, LAction.teardown] ++
           if c < max_retries then [LAction.backoff] else [])
    | LEvent.stream_fail =>
        (⟨1, true⟩, [LAction.attempt, LAction.teardown, LAction.backoff])
    | LEvent.stop_seen =>
        (⟨0, false⟩, [LAction.attempt, LAction.teardown])

/-- Run the retry machine from a state over a list of episodes. -/
def lidarRunFrom (s : LState) : List LEvent → LState × List LAction
  | [] => (s, [])
  | e :: rest =>
      let r := lidarStep s e
      let rr := lidarRunFrom r.1 rest
      (rr.1, r.2 ++ rr.2)

/-- Initial state: `retry_count = 0`, loop entered. -/
def lidarInit : LState := ⟨0, true⟩

/-- The retry machine from process start. -/
def lidarRun (evs : List LEvent) : LState × List LAction := lidarRunFrom lidarInit evs

/-- The mode/navigator invariant of the Supervisor. -/
def supInv (s : SupState) : Prop :=
  (s.navs = 1 ↔ s.mode = Mode.explore) ∧ s.navs ≤ 1

/-! ## Helper lemmas -/

theorem motorLoop_held (evs : List MotorEvent) (st : MState) :
    ((motorLoop st evs).1).held = st.held := by
  induction evs generalizing st with
  | nil => rfl
  | cons e rest ih =>
    cases e with
    | crash => rfl
    | tick c => cases c with
      | none => exact ih st
      | some cmd => exact ih ⟨st.held, applyCmd cmd⟩

theorem optMin_none_left (b : Option ℚ) : optMin none b = b := rfl

theorem spec_filtered_mem (scan_data : List RawReading) (p : ℚ × ℚ) :
    p ∈ spec_filtered scan_data ↔
      ∃ r ∈ scan_data, min_quality ≤ r.quality ∧ p = (r.angle, r.distance / 1000) := by
  unfold spec_filtered
  simp only [List.mem_map, List.mem_filter, decide_eq_true_eq]
  constructor
  · rintro ⟨r, ⟨hr, hq⟩, hp⟩
    exact ⟨r, hr, hq, hp.symm⟩
  · rintro ⟨r, hr, hq, hp⟩
    exact ⟨r, ⟨hr, hq⟩, hp.symm⟩

/-! ## Claims -/

/-- C1.  On every exit path of `MotorProcess.run` — stop event observed,
exception raised mid-loop (`crash` event), or command-loop end — the
`finally` clause first writes the EmergencyStop line values and then
releases every GPIO line that was acquired: afterwards no line is held and
the lines read all-off.  When `_init_gpio` failed nothing was acquired and
nothing is held.  (`_set_motors`/`_emergency_stop` are modelled from spec
§4.4; the `try/except/finally` structure is from the source.) -/
theorem c1_drive_exit_safety (initOk : Bool) (evs : List MotorEvent) :
    (motorRun initOk evs).held = 0 ∧ (motorRun initOk evs).vals = emergency_vals := by
  cases initOk with
  | false => exact ⟨rfl, rfl⟩
  | true =>
    unfold motorRun
    simp only [if_pos]
    rw [motorLoop_held evs ⟨6, all_off⟩]
    exact ⟨rfl, rfl⟩

/-- C2.  For every scan batch, the Explorer's `nearest` accumulator equals
the minimum of the distances of the points whose (heading-relative) angle
lies in `[-30, 30]`, and it is `none` (`float('inf')`, no frontal obstacle)
when no point of the batch lies in the cone. -/
theorem c2_frontal_cone_nearest (scan : List (ℚ × ℚ)) :
    computeNearest scan =
      specMin ((scan.filter fun p => decide (in_cone p.1)).map Prod.snd) ∧
    ((∀ p ∈ scan, ¬in_cone p.1) → computeNearest scan = none) := by
  have h := nearestFold_eq scan none
  rw [optMin_none_left] at h
  refine ⟨h, fun hall => ?_⟩
  rw [computeNearest, h]
  have : scan.filter (fun p => decide (in_cone p.1)) = [] := by
    rw [List.filter_eq_nil_iff]
    intro p hp
    simpa using hall p hp
  rw [this]
  rfl

/-- C2 witness: on the spec's own example batch
`[(angle 0, dist 1.0), (angle 90, dist 1.0)]` only the 0-degree point is in
the cone and `nearest = 1.0`; on `[(angle 90, dist 1.0)]` no point is in the
cone and `nearest` is infinite. -/
theorem c2_witness :
    computeNearest [((0 : ℚ), (1 : ℚ)), (90, 1)] = some 1 ∧
      computeNearest [((90 : ℚ), (1 : ℚ))] = none := by
  constructor
  · rw [(c2_frontal_cone_nearest [((0 : ℚ), (1 : ℚ)), (90, 1)]).1]
    norm_num [in_cone, List.filter_cons, specMin]
  · exact (c2_frontal_cone_nearest [((90 : ℚ), (1 : ℚ))]).2
      (by intro p hp; simp at hp; subst hp; norm_num [in_cone])

/-- C6.  `LiDARProcess._process_scan` keeps exactly the raw readings whose
quality is at least `min_quality`, reports each kept distance as
`distance / 1000` (meters), and `run` pushes nothing on the scan queue for a
window in which no reading passed the filter. -/
theorem c6_quality_filter (scan_data : List RawReading) :
    process_scan scan_data =
      (if (spec_filtered scan_data).isEmpty then none
       else some (spec_filtered scan_data)) ∧
    (∀ p : ℚ × ℚ,
      (∃ b, process_scan scan_data = some b ∧ p ∈ b) ↔
        ∃ r ∈ scan_data, min_quality ≤ r.quality ∧ p = (r.angle, r.distance / 1000)) ∧
    (lidar_emit scan_data = [] ↔ ∀ r ∈ scan_data, r.quality < min_quality) := by
  refine ⟨process_scan_eq_spec scan_data, fun p => ?_, ?_⟩
  · rw [process_scan_eq_spec scan_data, ← spec_filtered_mem scan_data p]
    by_cases hemp : (spec_filtered scan_data).isEmpty
    · simp only [if_pos hemp]
      rw [List.isEmpty_iff] at hemp
      simp [hemp]
    · simp only [if_neg hemp]
      constructor
      · rintro ⟨b, hb, hpb⟩
        injection hb with hb'
        exact hb' ▸ hpb
      · exact fun h => ⟨_, rfl, h⟩
  · unfold lidar_emit
    rw [process_scan_eq_spec scan_data]
    by_cases hemp : (spec_filtered scan_data).isEmpty
    · simp only [if_pos hemp]
      rw [List.isEmpty_iff] at hemp
      simp only [true_iff]
      intro r hr
      by_contra hq
      push_neg at hq
      have : (r.angle, r.distance / 1000) ∈ spec_filtered scan_data :=
        (spec_filtered_mem scan_data _).mpr ⟨r, hr, hq, rfl⟩
      rw [hemp] at this
      exact absurd this (List.not_mem_nil _)
    · simp only [if_neg hemp]
      refine iff_of_false (by simp) fun hall => ?_
      have : spec_filtered scan_data = [] := by
        rw [← List.isEmpty_iff]
        by_contra hne
        have hx : ∃ x, x ∈ spec_filtered scan_data := by
          cases hsf : spec_filtered scan_data with
          | nil => rw [hsf, List.isEmpty_iff] at hne; exact absurd rfl hne
          | cons a l => exact ⟨a, hsf ▸ List.mem_cons_self a l⟩
        obtain ⟨x, hxmem⟩ := hx
        obtain ⟨r, hr, hq, _⟩ := (spec_filtered_mem scan_data x).mp hxmem
        exact absurd hq (not_le.mpr (hall r hr))
      exact hemp (List.isEmpty_iff.mpr this)

/-- C6 witness: the quality-15 reading is kept with its distance in meters,
the quality-14 reading is dropped; a window of only sub-threshold readings
emits nothing. -/
theorem c6_witness :
    (∃ b, process_scan [⟨15, 0, 1000⟩, ⟨14, 90, 2000⟩] = some b ∧ ((0 : ℚ), (1 : ℚ)) ∈ b) ∧
      lidar_emit [⟨14, 90, 2000⟩] = [] := by
  constructor
  · exact ((c6_quality_filter [⟨15, 0, 1000⟩, ⟨14, 90, 2000⟩]).2.1 ((0 : ℚ), (1 : ℚ))).mpr
      ⟨⟨15, 0, 1000⟩, by simp, by norm_num [min_quality], by norm_num⟩
  · exact (c6_quality_filter [⟨14, 90, 2000⟩]).2.2.mpr
      (by intro r hr; simp at hr; rw [hr]; norm_num [min_quality])

theorem supStep_inv {s : SupState} (op : SupOp) (h : supInv s) :
    supInv (supStep s op).1 := by
  obtain ⟨hiff, hle⟩ := h
  cases op with
  | emergency =>
    refine ⟨⟨fun hn => ?_, fun hx => Mode.noConfusion hx⟩, ?_⟩
    · have hn' : s.navs - 1 = 1 := hn
      exact absurd hn' (by omega)
    · show s.navs - 1 ≤ 1
      omega
  | set_mode r =>
    cases r with
    | invalid => exact ⟨hiff, hle⟩
    | explore =>
      by_cases hm : s.mode = Mode.explore
      · simpa [supStep, handle_mode, hm] using ⟨hiff, hle⟩
      · have h0 : s.navs = 0 := by
          rcases Nat.lt_or_ge s.navs 1 with h1 | h1
          · omega
          · exact absurd (hiff.mp (by omega)) hm
        simp [supStep, handle_mode, hm, h0, supInv]
    | manual =>
      by_cases hm : s.mode = Mode.manual
      · simpa [supStep, handle_mode, hm] using ⟨hiff, hle⟩
      · have hx : s.mode = Mode.explore := by
          cases hmode : s.mode with
          | manual => exact absurd hmode hm
          | explore => rfl
        have h1 : s.navs = 1 := hiff.mpr hx
        simp [supStep, handle_mode, hm, h1, supInv]

theorem supRun_inv (ops : List SupOp) (s : SupState) (h : supInv s) :
    supInv (supRun s ops).1 := by
  induction ops generalizing s with
  | nil => exact h
  | cons op rest ih => exact ih (supStep s op).1 (supStep_inv op h)

/-- C5.  After any sequence of set-mode and emergency-stop operations from
the initial manual state, a Navigator process exists iff the mode is
explore, and at most one Navigator process exists. -/
theorem c5_mode_navigator_invariant (ops : List SupOp) :
    ((supRun supInit ops).1.navs = 1 ↔ (supRun supInit ops).1.mode = Mode.explore) ∧
      (supRun supInit ops).1.navs ≤ 1 :=
  supRun_inv ops supInit ⟨by simp [supInit], by simp [supInit]⟩

/-- C4 counterexample: switching to explore and then back to manual via the
set-mode operation is an Explore-to-Manual transition that terminates the
Navigator, yet the Supervisor forwards no command at all on the motor
command queue — in particular no EmergencyStop. -/
theorem c4_counterexample :
    (supRun supInit [SupOp.set_mode ModeReq.explore]).1 = ⟨Mode.explore, 1⟩ ∧
    (supRun supInit [SupOp.set_mode ModeReq.explore, SupOp.set_mode ModeReq.manual]).1 =
      ⟨Mode.manual, 0⟩ ∧
    (supRun supInit [SupOp.set_mode ModeReq.explore, SupOp.set_mode ModeReq.manual]).2 = [] :=
  ⟨rfl, rfl, rfl⟩

/-- C4 amended.  The emergency-stop operation always forwards exactly one
EmergencyStop on the command channel, terminates any active Navigator and
forces mode to manual; the set-mode Explore-to-Manual transition terminates
the Navigator but forwards no command to the Drive worker. -/
theorem c4_explore_to_manual (s : SupState) :
    (supStep s SupOp.emergency).2 = [MotorCmd.estop] ∧
    (supStep s SupOp.emergency).1 = ⟨Mode.manual, s.navs - 1⟩ ∧
    (s.mode = Mode.explore →
      supStep s (SupOp.set_mode ModeReq.manual) = (⟨Mode.manual, s.navs - 1⟩, [])) := by
  refine ⟨rfl, rfl, fun hx => ?_⟩
  have hm : ¬s.mode = Mode.manual := by rw [hx]; intro h; cases h
  simp [supStep, handle_mode, hm]

/-- C4 amended witness: from the explore state with one Navigator, the
set-mode operation to manual yields the manual state with no Navigator and
forwards nothing. -/
theorem c4_witness :
    supStep ⟨Mode.explore, 1⟩ (SupOp.set_mode ModeReq.manual) = (⟨Mode.manual, 0⟩, []) :=
  (c4_explore_to_manual ⟨Mode.explore, 1⟩).2.2 rfl

/-- C7.  `handle_control` rejects every request whose speeds are not both in
`[-1, 1]` (whatever the mode), rejects every request in a non-manual mode
with the mode-related rejection, enqueues `Move(left, right)` exactly when
the mode is manual and both speeds validate, and enqueues nothing on any
rejection. -/
theorem c7_control_validation (mode : Mode) (left right : ℚ) :
    (¬(validate_speed left ∧ validate_speed right) →
      (handle_control mode left right).1 ≠ CtrlResult.ok) ∧
    (¬mode = Mode.manual →
      handle_control mode left right = (CtrlResult.rejected_mode, [])) ∧
    ((handle_control mode left right).1 = CtrlResult.ok ↔
      mode = Mode.manual ∧ validate_speed left ∧ validate_speed right) ∧
    ((handle_control mode left right).2 = [MotorCmd.move left right] ↔
      (handle_control mode left right).1 = CtrlResult.ok) ∧
    ((handle_control mode left right).1 ≠ CtrlResult.ok →
      (handle_control mode left right).2 = []) := by
  unfold handle_control
  by_cases hm : mode = Mode.manual
  · by_cases hv : validate_speed left ∧ validate_speed right
    · simp [hm, hv]
    · simp [hm, hv]
  · simp [hm]

/-- C7 witness: at full forward speed in manual mode the command is
enqueued; speed 2 is rejected in manual mode; a valid-speed request in
explore mode is rejected with the mode-related reason. -/
theorem c7_witness :
    (handle_control Mode.manual 1 1).1 = CtrlResult.ok ∧
    (handle_control Mode.manual 2 1).1 ≠ CtrlResult.ok ∧
    handle_control Mode.explore 1 1 = (CtrlResult.rejected_mode, []) := by
  refine ⟨?_, ?_, ?_⟩
  · exact (c7_control_validation Mode.manual 1 1).2.2.1.mpr
      ⟨rfl, by norm_num [validate_speed], by norm_num [validate_speed]⟩
  · exact (c7_control_validation Mode.manual 2 1).1
      (by intro h; have := h.1.2; norm_num [validate_speed] at this)
  · exact (c7_control_validation Mode.explore 1 1).2.1 (by intro h; cases h)

theorem lidar_frozen (evs : List LEvent) (s : LState) (h : s.running = false) :
    lidarRunFrom s evs = (s, []) := by
  induction evs with
  | nil => rfl
  | cons e rest ih =>
    show (let r := lidarStep s e
          let rr := lidarRunFrom r.1 rest
          (rr.1, r.2 ++ rr.2)) = (s, [])
    rw [show lidarStep s e = (s, []) from by unfold lidarStep; rw [if_pos h]]
    simp [ih]

theorem lidarStep_inv {s : LState} (e : LEvent)
    (h : s.running = true → s.count < max_retries) :
    (lidarStep s e).1.running = true → (lidarStep s e).1.count < max_retries := by
  cases hb : s.running with
  | false =>
    unfold lidarStep
    rw [if_pos hb]
    exact h
  | true =>
    unfold lidarStep
    rw [if_neg (by rw [hb]; exact fun hc => Bool.noConfusion hc)]
    cases e with
    | init_fail =>
      intro hrun
      exact of_decide_eq_true hrun
    | stream_fail =>
      intro _
      norm_num [max_retries]
    | stop_seen =>
      intro hrun
      exact Bool.noConfusion hrun

theorem lidarRunFrom_inv (evs : List LEvent) (s : LState)
    (h : s.running = true → s.count < max_retries) :
    (lidarRunFrom s evs).1.running = true → (lidarRunFrom s evs).1.count < max_retries := by
  induction evs generalizing s with
  | nil => exact h
  | cons e rest ih => exact ih (lidarStep s e).1 (lidarStep_inv e h)

theorem lidarStep_attempt_running {s : LState} {e : LEvent}
    (h : LAction.attempt ∈ (lidarStep s e).2) : s.running = true := by
  cases hb : s.running with
  | true => rfl
  | false =>
    rw [show lidarStep s e = (s, []) from by unfold lidarStep; rw [if_pos hb]] at h
    exact absurd h (List.not_mem_nil _)

/-- C8.  Every exception episode of `LiDARProcess.run` (failed connect, or
failed streaming after a connect that reset the counter) increments
`retry_count` and tears the device down; a backoff-and-retry happens exactly
when the updated counter is still below `max_retries`; a connection attempt
only ever happens in the running state, which (from process start) implies
the counter is below `max_retries`; and once the loop has been left
(`running = false`, in particular when the counter reached `max_retries`)
no event ever produces another action or state change. -/
theorem c8_retry_exhaustion (s : LState) (e : LEvent) (evs : List LEvent) :
    (s.running = true → e = LEvent.init_fail →
      (lidarStep s e).1.count = s.count + 1 ∧ LAction.teardown ∈ (lidarStep s e).2) ∧
    (s.running = true → e = LEvent.stream_fail →
      (lidarStep s e).1.count = 0 + 1 ∧ LAction.teardown ∈ (lidarStep s e).2) ∧
    (LAction.attempt ∈ (lidarStep s e).2 → s.running = true) ∧
    ((lidarRun evs).1.running = true → (lidarRun evs).1.count < max_retries) ∧
    (LAction.attempt ∈ (lidarStep (lidarRun evs).1 e).2 →
      (lidarRun evs).1.count < max_retries) ∧
    (s.running = false → lidarRunFrom s evs = (s, [])) ∧
    (s.running = true → e ≠ LEvent.stop_seen →
      (LAction.backoff ∈ (lidarStep s e).2 ↔ (lidarStep s e).1.count < max_retries)) ∧
    (s.running = true → e = LEvent.init_fail → s.count + 1 = max_retries →
      (lidarStep s e).1.running = false) := by
  have hinv := lidarRunFrom_inv evs lidarInit (fun _ => by norm_num [lidarInit, max_retries])
  refine ⟨?_, ?_, fun h => lidarStep_attempt_running h, hinv,
    fun h => hinv (lidarStep_attempt_running h), lidar_frozen evs s, ?_, ?_⟩
  · intro hr he
    subst he
    unfold lidarStep
    rw [if_neg (by rw [hr]; exact fun hc => Bool.noConfusion hc)]
    exact ⟨rfl, by simp⟩
  · intro hr he
    subst he
    unfold lidarStep
    rw [if_neg (by rw [hr]; exact fun hc => Bool.noConfusion hc)]
    exact ⟨rfl, by simp⟩
  · intro hr he
    unfold lidarStep
    rw [if_neg (by rw [hr]; exact fun hc => Bool.noConfusion hc)]
    cases e with
    | init_fail =>
      by_cases hc : s.count + 1 < max_retries
      · simp [hc]
      · simp [hc]
    | stream_fail => simp [max_retries]
    | stop_seen => exact absurd rfl he
  · intro hr he hmax
    subst he
    unfold lidarStep
    rw [if_neg (by rw [hr]; exact fun hc => Bool.noConfusion hc)]
    show decide (s.count + 1 < max_retries) = false
    rw [hmax]
    simp

/-- C8 witness: a fifth consecutive connect failure sets the counter to
`max_retries` and leaves the loop; from the stopped state no episode has
any effect; and a stream failure after four connect failures restarts from
a counter of `0 + 1`. -/
theorem c8_witness :
    ((lidarStep ⟨4, true⟩ LEvent.init_fail).1.count = 4 + 1 ∧
      LAction.teardown ∈ (lidarStep ⟨4, true⟩ LEvent.init_fail).2) ∧
    (lidarStep ⟨4, true⟩ LEvent.init_fail).1.running = false ∧
    lidarRunFrom ⟨5, false⟩ [LEvent.init_fail, LEvent.stream_fail] = (⟨5, false⟩, []) ∧
    (lidarStep ⟨4, true⟩ LEvent.stream_fail).1.count = 0 + 1 :=
  ⟨(c8_retry_exhaustion ⟨4, true⟩ LEvent.init_fail []).1 rfl rfl,
   (c8_retry_exhaustion ⟨4, true⟩ LEvent.init_fail []).2.2.2.2.2.2.2 rfl rfl rfl,
   (c8_retry_exhaustion ⟨5, false⟩ LEvent.init_fail
      [LEvent.init_fail, LEvent.stream_fail]).2.2.2.2.2.1 rfl,
   ((c8_retry_exhaustion ⟨4, true⟩ LEvent.stream_fail []).2.1 rfl rfl).1⟩

theorem markCell_mono (cosd sind : ℚ → ℚ) (st : EState) (g : ℤ × ℤ → Bool)
    (p : ℚ × ℚ) (c : ℤ × ℤ) (h : g c = true) : markCell cosd sind st g p c = true := by
  unfold markCell
  split
  · by_cases hc : c = ((project cosd sind st p).2, (project cosd sind st p).1)
    · simp [hc]
    · simp [hc, h]
  · exact h

theorem markScan_mono (cosd sind : ℚ → ℚ) (st : EState) (scan : List (ℚ × ℚ))
    (c : ℤ × ℤ) (h : st.grid c = true) : markScan cosd sind st scan c = true := by
  unfold markScan
  suffices hgen : ∀ g : ℤ × ℤ → Bool, g c = true →
      (scan.foldl (markCell cosd sind st) g) c = true from hgen st.grid h
  induction scan with
  | nil => exact fun g hg => hg
  | cons p rest ih =>
    intro g hg
    exact ih (markCell cosd sind st g p) (markCell_mono cosd sind st g p c hg)

/-- C10.  One Explorer iteration never clears an occupied cell: any cell
occupied before `explorerStep` is still occupied after it, whichever branch
is taken, so the occupied set grows monotonically over a session. -/
theorem c10_grid_monotone (cosd sind : ℚ → ℚ) (st : EState) (scan : List (ℚ × ℚ))
    (c : ℤ × ℤ) (h : st.grid c = true) :
    ((explorerStep cosd sind st scan).1).grid c = true := by
  have hm := markScan_mono cosd sind st scan c h
  simp only [explorerStep]
  split
  · exact hm
  · exact hm

/-- C10 witness: starting from a fully occupied grid, the cell `(0, 0)` is
still occupied after a step on an empty batch. -/
theorem c10_witness :
    ((explorerStep (fun _ => 1) (fun _ => 0)
        ⟨fun _ => true, 500, 500, 0⟩ []).1).grid (0, 0) = true :=
  c10_grid_monotone (fun _ => 1) (fun _ => 0) ⟨fun _ => true, 500, 500, 0⟩ [] (0, 0) rfl

theorem explorerStep_cmd (cosd sind : ℚ → ℚ) (st : EState) (scan : List (ℚ × ℚ)) :
    ∃ l r, (explorerStep cosd sind st scan).2 = MotorCmd.move l r := by
  simp only [explorerStep]
  split
  · exact ⟨-TURN_SPEED, TURN_SPEED, rfl⟩
  · exact ⟨FORWARD_SPEED, FORWARD_SPEED, rfl⟩

theorem explorerLoop_moves (cosd sind : ℚ → ℚ)
    (polls : List (Option (List (ℚ × ℚ)))) (st : EState) (c : MotorCmd)
    (h : c ∈ (explorerLoop cosd sind st polls).2) :
    ∃ l r, c = MotorCmd.move l r := by
  induction polls generalizing st with
  | nil => exact absurd h (List.not_mem_nil _)
  | cons poll rest ih =>
    cases poll with
    | none => exact ih st h
    | some scan =>
      rcases List.mem_cons.mp h with hc | hc
      · obtain ⟨l, r, hlr⟩ := explorerStep_cmd cosd sind st scan
        exact ⟨l, r, hc.trans hlr⟩
      · exact ih (explorerStep cosd sind st scan).1 hc

/-- C9 counterexample: when the Explorer loop exits on cancellation (stop
event observed after zero iterations), the Explorer itself pushes an
EmergencyStop onto the motor command queue — it does not merely log. -/
theorem c9_counterexample :
    (explorerRun (fun _ => 1) (fun _ => 0) explorerInit []).2 = [MotorCmd.estop] := rfl

/-- C9 amended.  During the loop the Explorer sends only Move commands; when
the loop exits on cancellation it sends exactly one trailing EmergencyStop
on the command channel (its last command) and then logs termination. -/
theorem c9_stop_on_exit (cosd sind : ℚ → ℚ) (st : EState)
    (polls : List (Option (List (ℚ × ℚ)))) :
    (explorerRun cosd sind st polls).2 =
      (explorerLoop cosd sind st polls).2 ++ [MotorCmd.estop] ∧
    (∀ c ∈ (explorerLoop cosd sind st polls).2, ∃ l r, c = MotorCmd.move l r) ∧
    (explorerRun cosd sind st polls).2.getLast? = some MotorCmd.estop := by
  refine ⟨rfl, fun c hc => explorerLoop_moves cosd sind polls st c hc, ?_⟩
  show ((explorerLoop cosd sind st polls).2 ++ [MotorCmd.estop]).getLast? = some MotorCmd.estop
  rw [List.getLast?_concat]

/-- C9 amended witness: with one empty poll before cancellation the last
(and only) command pushed by the Explorer is the EmergencyStop. -/
theorem c9_witness :
    (explorerRun (fun _ => 1) (fun _ => 0) explorerInit [none]).2.getLast? =
      some MotorCmd.estop :=
  (c9_stop_on_exit (fun _ => 1) (fun _ => 0) explorerInit [none]).2.2

theorem qtrunc_eq (a : ℚ) (z : ℤ) (h0 : 0 ≤ a) (h1 : (z : ℚ) ≤ a) (h2 : a < z + 1) :
    qtrunc a = z := by
  rw [qtrunc, if_pos h0, Int.floor_eq_iff]
  exact ⟨h1, by exact_mod_cast h2⟩

/-- C3 (code bug).  On the batch `[(angle 0, dist 1.0)]` from the initial
pose (`position = [500, 500]`, `orientation = 0`), `nearest = 1.0` is not
below `MIN_DISTANCE`, so the forward branch runs and commands
`Move(FORWARD_SPEED, FORWARD_SPEED)`; but because `position` is an integer
numpy array, the `+= 0.05 * cos/sin` update is truncated and the stored
position does not advance at all — it differs from the float position
`500 + 0.05` required by the claim (any trig model with `cos 0 = 1`,
`sin 0 = 0` witnesses this). -/
theorem c3_forward_position_bug (cosd sind : ℚ → ℚ)
    (h1 : cosd 0 = 1) (h2 : sind 0 = 0) :
    (explorerStep cosd sind explorerInit [(0, 1)]).2 =
      MotorCmd.move FORWARD_SPEED FORWARD_SPEED ∧
    (explorerStep cosd sind explorerInit [(0, 1)]).1.posx = explorerInit.posx ∧
    (explorerStep cosd sind explorerInit [(0, 1)]).1.posy = explorerInit.posy ∧
    (explorerInit.posx : ℚ) + 1/20 * cosd explorerInit.orient ≠
      ((explorerStep cosd sind explorerInit [(0, 1)]).1.posx : ℚ) := by
  have hnear : computeNearest [((0 : ℚ), (1 : ℚ))] = some 1 := by
    show nearestFold
        (if in_cone 0 ∧ (∀ n ∈ (none : Option ℚ), (1 : ℚ) < n) then some 1 else none)
        [] = some 1
    rw [if_pos ⟨⟨by norm_num, by norm_num⟩, by simp⟩]
    rfl
  have hb : nearBelow (computeNearest [((0 : ℚ), (1 : ℚ))]) MIN_DISTANCE = false := by
    rw [hnear]
    norm_num [nearBelow, MIN_DISTANCE]
  have hox : explorerInit.orient = 0 := rfl
  have hpx : explorerInit.posx = 500 := by norm_num [explorerInit, MAP_SIZE]
  have hpy : explorerInit.posy = 500 := by norm_num [explorerInit, MAP_SIZE]
  have hstep : explorerStep cosd sind explorerInit [((0 : ℚ), (1 : ℚ))] =
      (⟨markScan cosd sind explorerInit [((0 : ℚ), (1 : ℚ))],
        qtrunc ((explorerInit.posx : ℚ) + 1/20 * cosd explorerInit.orient),
        qtrunc ((explorerInit.posy : ℚ) + 1/20 * sind explorerInit.orient),
        explorerInit.orient⟩,
       MotorCmd.move FORWARD_SPEED FORWARD_SPEED) := by
    simp only [explorerStep, hb, Bool.false_eq_true, if_false]
  have hx : qtrunc ((explorerInit.posx : ℚ) + 1/20 * cosd explorerInit.orient) = 500 := by
    rw [hox, h1, hpx]
    exact qtrunc_eq _ 500 (by norm_num) (by norm_num) (by norm_num)
  have hy : qtrunc ((explorerInit.posy : ℚ) + 1/20 * sind explorerInit.orient) = 500 := by
    rw [hox, h2, hpy]
    exact qtrunc_eq _ 500 (by norm_num) (by norm_num) (by norm_num)
  rw [hstep]
  refine ⟨rfl, ?_, ?_, ?_⟩
  · rw [show (⟨markScan cosd sind explorerInit [((0 : ℚ), (1 : ℚ))],
        qtrunc ((explorerInit.posx : ℚ) + 1/20 * cosd explorerInit.orient),
        qtrunc ((explorerInit.posy : ℚ) + 1/20 * sind explorerInit.orient),
        explorerInit.orient⟩ : EState).posx =
          qtrunc ((explorerInit.posx : ℚ) + 1/20 * cosd explorerInit.orient) from rfl,
      hx, hpx]
  · rw [show (⟨markScan cosd sind explorerInit [((0 : ℚ), (1 : ℚ))],
        qtrunc ((explorerInit.posx : ℚ) + 1/20 * cosd explorerInit.orient),
        qtrunc ((explorerInit.posy : ℚ) + 1/20 * sind explorerInit.orient),
        explorerInit.orient⟩ : EState).posy =
          qtrunc ((explorerInit.posy : ℚ) + 1/20 * sind explorerInit.orient) from rfl,
      hy, hpy]
  · rw [show (⟨markScan cosd sind explorerInit [((0 : ℚ), (1 : ℚ))],
        qtrunc ((explorerInit.posx : ℚ) + 1/20 * cosd explorerInit.orient),
        qtrunc ((explorerInit.posy : ℚ) + 1/20 * sind explorerInit.orient),
        explorerInit.orient⟩ : EState).posx =
          qtrunc ((explorerInit.posx : ℚ) + 1/20 * cosd explorerInit.orient) from rfl,
      hx, hox, h1, hpx]
    norm_num

/-- C3 witness: the bug instantiated with a concrete trig model that is
exact at 0 degrees. -/
theorem c3_witness :
    (explorerStep (fun _ => 1) (fun _ => 0) explorerInit [(0, 1)]).2 =
      MotorCmd.move FORWARD_SPEED FORWARD_SPEED ∧
    (explorerStep (fun _ => 1) (fun _ => 0) explorerInit [(0, 1)]).1.posx =
      explorerInit.posx :=
  ⟨(c3_forward_position_bug (fun _ => 1) (fun _ => 0) rfl rfl).1,
   (c3_forward_position_bug (fun _ => 1) (fun _ => 0) rfl rfl).2.1⟩

end Vehicle
